import Mathlib

/-!
Shallow embedding of the two mini-games of the repository:

* `Snake`  — the Snake arcade game of `src/unnamed/part_000` (a React
  component).  The mutable refs of the component (`snakeRef`, `dirRef`,
  `nextDirRef`, `foodRef`, `poisonRef`, `obstaclesRef`, `scoreRef`,
  `tickMs`, `timeLeft`, `tickCountRef`, `best`, `state`) become the fields
  of a `Game` record; the `tick`, `start`, `endGame`, `validateTurn`,
  `makeCode`, `randomEmptyCell`, `within` functions are translated one by
  one.  `Math.random()` draws are made explicit: `randomEmptyCell`
  receives the (finite prefix of the) stream of random grid cells it
  would draw and returns `none` when the rejection loop never finds a
  free cell (the source would loop forever); the 60% poison coin flip of
  the tick becomes an explicit `Bool` argument.  Functions that read the
  component state return an updated copy of the record instead of
  mutating refs.

* `Lock`   — the lock-picking slider puzzle of `src/src/App.tsx`; only
  its pure unlocked check is embedded.
-/

namespace Snake

/-- Grid width, `GRID_COLS = 28` in the source. -/
def GRID_COLS : Int := 28

/-- Grid height, `GRID_ROWS = 20` in the source. -/
def GRID_ROWS : Int := 20

/-- `START_SPEED_MS = 140`. -/
def START_SPEED_MS : Int := 140

/-- `MIN_SPEED_MS = 60`. -/
def MIN_SPEED_MS : Int := 60

/-- `TIME_LIMIT_S = 75`. -/
def TIME_LIMIT_S : Int := 75

/-- `OBSTACLE_INTERVAL_TICKS = 18`. -/
def OBSTACLE_INTERVAL_TICKS : Nat := 18

/-- `MAX_OBSTACLES = 40`. -/
def MAX_OBSTACLES : Nat := 40

/-- `POISON_INTERVAL_TICKS = 23`. -/
def POISON_INTERVAL_TICKS : Nat := 23

/-- A grid cell / direction vector, the source's `type Vec = { x; y }`. -/
structure Vec where
  x : Int
  y : Int
deriving DecidableEq, Repr

/-- Game-over reason, the source's `reason: "hit" | "timeout"`. -/
inductive Reason where
  | hit
  | timeout
deriving DecidableEq, Repr

/-- The source's `GameState` phase: `idle`, `running`, or
`gameover` carrying the unlock code and the reason. -/
inductive Phase where
  | idle
  | running
  | gameover (code : String) (reason : Reason)
deriving DecidableEq, Repr

/-- The whole mutable state of the Snake component: each field is one of
the refs / state hooks of the source. -/
structure Game where
  snake : List Vec
  dir : Vec
  nextDir : Vec
  food : Option Vec
  poison : Option Vec
  obstacles : Finset Vec
  score : Int
  tickMs : Int
  timeLeft : Int
  tickCount : Nat
  best : Int
  phase : Phase

/-- `within(v)`: `v.x >= 0 && v.x < GRID_COLS && v.y >= 0 && v.y < GRID_ROWS`. -/
def within (v : Vec) : Bool :=
  0 ≤ v.x && v.x < GRID_COLS && 0 ≤ v.y && v.y < GRID_ROWS

/-- The occupancy test built by `randomEmptyCell`: the `occupied` set
collects the snake body, the obstacles, the food cell (when present) and
the poison cell (when present). -/
def occupiedCell (snake : List Vec) (obstacles : Finset Vec)
    (food poison : Option Vec) (v : Vec) : Bool :=
  v ∈ snake || v ∈ obstacles || food = some v || poison = some v

/-- `randomEmptyCell()`: repeatedly draw a random grid cell, rejecting
occupied ones.  The random draws are passed in as the list `draws`
(each produced in the source as `⟨⌊random*GRID_COLS⌋, ⌊random*GRID_ROWS⌋⟩`);
the result is the first unoccupied draw, or `none` when every supplied
draw is occupied — the case in which the source's `do … while` loop
would keep drawing. -/
def randomEmptyCell (snake : List Vec) (obstacles : Finset Vec)
    (food poison : Option Vec) (draws : List Vec) : Option Vec :=
  draws.find? fun v => ! occupiedCell snake obstacles food poison v

/-- `makeCode(scoreVal, elapsedSec)`: the fixed success code for a score
of at least 100, the fixed placeholder otherwise (`elapsedSec` is
ignored by the source body). -/
def makeCode (scoreVal : Int) (elapsedSec : Int) : String :=
  if 100 ≤ scoreVal then "4712" else "Code non débloqué"

/-- `endGame(reason)`: computes the code from the final score, raises
the best score to `max(best, finalScore)` (the source also writes it to
`localStorage`, an external effect), and moves to the `gameover` phase.
No other field is touched. -/
def endGame (g : Game) (reason : Reason) : Game :=
  let finalScore := g.score
  let elapsed := TIME_LIMIT_S - g.timeLeft
  let code := makeCode finalScore elapsed
  { g with best := max g.best finalScore
           phase := Phase.gameover code reason }

/-- `validateTurn(cur, next)`: keep `cur` when `next` is its exact
opposite vector, otherwise adopt `next`. -/
def validateTurn (cur next : Vec) : Vec :=
  if cur.x = -next.x ∧ cur.y = -next.y then cur else next

/-- The food block of `tick` (source lines 202–216): when the new head
is on the food, add 5 to the score, relocate the food via
`randomEmptyCell` (whose occupied set at that point already contains the
grown snake and still the old food), set `grew`, and `accel()` the tick
interval by 4 ms floored at `MIN_SPEED_MS`.  `g` is the state with the
new head already pushed.  Returns `none` when the relocation draw list
is exhausted. -/
def foodStep (g : Game) (head : Vec) (foodDraws : List Vec) :
    Option (Game × Bool) :=
  if g.food = some head then
    match randomEmptyCell g.snake g.obstacles g.food g.poison foodDraws with
    | none => none
    | some f =>
        some ({ g with score := g.score + 5
                       food := some f
                       tickMs := max MIN_SPEED_MS (g.tickMs - 4) }, true)
  else some (g, false)

/-- The poison block of `tick` (source lines 217–229): when the new head
is on the poison, subtract 7 from the score, speed up by 8 ms floored at
`MIN_SPEED_MS`, and clear the poison. -/
def poisonStep (g : Game) (head : Vec) : Game :=
  if g.poison = some head then
    { g with score := g.score - 7
             tickMs := max MIN_SPEED_MS (g.tickMs - 8)
             poison := none }
  else g

/-- Source line 231: `if (!grew) snakeRef.current.pop()`. -/
def trimStep (g : Game) (grew : Bool) : Game :=
  if grew then g else { g with snake := g.snake.dropLast }

/-- The obstacle-spawn block of `tick` (source lines 234–240): after the
tick counter was advanced, on the 18-tick cadence and while under the
obstacle cap, add one random empty cell to the obstacles. -/
def obstacleStep (g : Game) (obsDraws : List Vec) : Option Game :=
  if g.tickCount % OBSTACLE_INTERVAL_TICKS = 0 ∧
      g.obstacles.card < MAX_OBSTACLES then
    match randomEmptyCell g.snake g.obstacles g.food g.poison obsDraws with
    | none => none
    | some o => some { g with obstacles := insert o g.obstacles }
  else some g

/-- The poison-spawn block of `tick` (source lines 241–243): on the
23-tick cadence, with probability 0.6 (the coin flip is the explicit
`roll` argument) place the poison on a random empty cell, otherwise
clear it. -/
def poisonSpawnStep (g : Game) (roll : Bool) (poisonDraws : List Vec) :
    Option Game :=
  if g.tickCount % POISON_INTERVAL_TICKS = 0 then
    if roll then
      match randomEmptyCell g.snake g.obstacles g.food g.poison poisonDraws with
      | none => none
      | some p => some { g with poison := some p }
    else some { g with poison := none }
  else some g

/-- `tick()`: one simulation step.  Resolve the pending direction, move
the head, end the game with reason `hit` on a wall / obstacle / body
collision (mutating nothing else), otherwise push the head, handle food
and poison, pop the tail unless the snake grew, advance the tick
counter, and run the obstacle and poison spawn cadences.  `none` models
the two non-returning behaviours of the source: indexing an empty snake
and a `randomEmptyCell` rejection loop that never terminates. -/
def tick (g : Game) (foodDraws obsDraws poisonDraws : List Vec)
    (roll : Bool) : Option Game := do
  let h ← g.snake.head?
  let dir := validateTurn g.dir g.nextDir
  let head : Vec := ⟨h.x + dir.x, h.y + dir.y⟩
  if ! within head ∨ head ∈ g.obstacles ∨ head ∈ g.snake then
    return endGame { g with dir := dir } Reason.hit
  else
    let g1 : Game := { g with dir := dir, snake := head :: g.snake }
    let (g2, grew) ← foodStep g1 head foodDraws
    let g3 := poisonStep g2 head
    let g4 := trimStep g3 grew
    let g5 : Game := { g4 with tickCount := g4.tickCount + 1 }
    let g6 ← obstacleStep g5 obsDraws
    let g7 ← poisonSpawnStep g6 roll poisonDraws
    return g7

/-- The fixed obstacle pattern laid down by `start()` (source lines
109–119): every third column of the top row, every fourth column of the
bottom row, every third row of the left column, every fourth row of the
right column. -/
def startObstacles : Finset Vec :=
  (((List.range 28).filterMap fun i =>
      if i % 3 = 0 then some (⟨(i : Int), 0⟩ : Vec) else none) ++
   ((List.range 28).filterMap fun i =>
      if i % 4 = 0 then some (⟨(i : Int), GRID_ROWS - 1⟩ : Vec) else none) ++
   ((List.range 20).filterMap fun j =>
      if j % 3 = 0 then some (⟨0, (j : Int)⟩ : Vec) else none) ++
   ((List.range 20).filterMap fun j =>
      if j % 4 = 0 then some (⟨GRID_COLS - 1, (j : Int)⟩ : Vec) else none)).toFinset

/-- The initial snake of `start()`: four cells left of centre on the
middle row, head first, with `cx = ⌊GRID_COLS/2⌋` and
`cy = ⌊GRID_ROWS/2⌋`. -/
def startSnake : List Vec :=
  [⟨GRID_COLS / 2 - 1, GRID_ROWS / 2⟩, ⟨GRID_COLS / 2 - 2, GRID_ROWS / 2⟩,
   ⟨GRID_COLS / 2 - 3, GRID_ROWS / 2⟩, ⟨GRID_COLS / 2 - 4, GRID_ROWS / 2⟩]

/-- `start()`: reset every field and enter the `running` phase.  When the
initial food is placed, `foodRef`/`poisonRef` still hold the previous
game's values (they are overwritten only after the `randomEmptyCell`
call), so those stale cells are passed in as `prevFood`/`prevPoison`
and excluded from the food draw.  `best` is the persisted best score,
untouched by `start`. -/
def start (best : Int) (prevFood prevPoison : Option Vec)
    (foodDraws : List Vec) : Option Game :=
  match randomEmptyCell startSnake startObstacles prevFood prevPoison
      foodDraws with
  | none => none
  | some f =>
      some { snake := startSnake
             dir := ⟨1, 0⟩
             nextDir := ⟨1, 0⟩
             food := some f
             poison := none
             obstacles := startObstacles
             score := 0
             tickMs := START_SPEED_MS
             timeLeft := TIME_LIMIT_S
             tickCount := 0
             best := best
             phase := Phase.running }

/-- A JavaScript number as `Number(string)` can produce it: a finite
value, a signed infinity, or `NaN`.  Finite values are carried as exact
rationals (the grammar's mathematical value); rounding a finite value to
the binary64 grid, and binary64 overflow to infinity, are not modelled —
an idealization that can change which finite number a huge or
high-precision literal denotes but never whether a string parses
(`NaN`-ness), and no value the game itself writes is affected. -/
inductive JsNum where
  | num (q : ℚ)
  | inf
  | negInf
  | nan
deriving DecidableEq, Repr

/-- The numeric value of a decimal digit character, `none` for any other
character. -/
def charDigit? (c : Char) : Option Nat :=
  if '0' ≤ c ∧ c ≤ '9' then some (c.toNat - '0'.toNat) else none

/-- One step of decimal accumulation: a non-digit character, or an
already failed accumulator, poisons the parse. -/
def decDigitStep (acc : Option Nat) (c : Char) : Option Nat :=
  match acc with
  | none => none
  | some n =>
    match charDigit? c with
    | none => none
    | some d => some (n * 10 + d)

/-- The value of a non-empty all-digit character list, `none` when the
list is empty or contains a non-digit. -/
def decDigitsVal? (cs : List Char) : Option Nat :=
  match cs with
  | [] => none
  | _ => cs.foldl decDigitStep (some 0)

/-- The numeric value of a hexadecimal digit character. -/
def hexDigit? (c : Char) : Option Nat :=
  if '0' ≤ c ∧ c ≤ '9' then some (c.toNat - '0'.toNat)
  else if 'a' ≤ c ∧ c ≤ 'f' then some (c.toNat - 'a'.toNat + 10)
  else if 'A' ≤ c ∧ c ≤ 'F' then some (c.toNat - 'A'.toNat + 10)
  else none

/-- The numeric value of an octal digit character. -/
def octDigit? (c : Char) : Option Nat :=
  if '0' ≤ c ∧ c ≤ '7' then some (c.toNat - '0'.toNat) else none

/-- The numeric value of a binary digit character. -/
def binDigit? (c : Char) : Option Nat :=
  if c = '0' then some 0 else if c = '1' then some 1 else none

/-- One accumulation step in radix `radix`. -/
def radixDigitStep (digit? : Char → Option Nat) (radix : Nat)
    (acc : Option Nat) (c : Char) : Option Nat :=
  match acc with
  | none => none
  | some n =>
    match digit? c with
    | none => none
    | some d => some (n * radix + d)

/-- The value of a non-empty digit run in radix `radix`, `none` when the
run is empty or contains a character outside the digit set. -/
def radixValue? (digit? : Char → Option Nat) (radix : Nat)
    (cs : List Char) : Option Nat :=
  match cs with
  | [] => none
  | _ => cs.foldl (radixDigitStep digit? radix) (some 0)

/-- ECMA-262 `WhiteSpace` and `LineTerminator` code points, the
characters `StringToNumber` strips from both ends. -/
def jsWhitespaceChar (c : Char) : Bool :=
  c.toNat = 0x09 ∨ c.toNat = 0x0A ∨ c.toNat = 0x0B ∨ c.toNat = 0x0C ∨
  c.toNat = 0x0D ∨ c.toNat = 0x20 ∨ c.toNat = 0xA0 ∨ c.toNat = 0x1680 ∨
  (0x2000 ≤ c.toNat ∧ c.toNat ≤ 0x200A) ∨ c.toNat = 0x2028 ∨
  c.toNat = 0x2029 ∨ c.toNat = 0x202F ∨ c.toNat = 0x205F ∨
  c.toNat = 0x3000 ∨ c.toNat = 0xFEFF

/-- Strip leading and trailing JS whitespace. -/
def jsTrim (cs : List Char) : List Char :=
  ((cs.dropWhile jsWhitespaceChar).reverse.dropWhile jsWhitespaceChar).reverse

/-- The value of a run of decimal digit characters (callers only apply
this to runs produced by `takeWhile` on the digit predicate). -/
def decRunVal (cs : List Char) : Nat :=
  cs.foldl (fun a c => a * 10 + (c.toNat - '0'.toNat)) 0

/-- ECMA-262 `ExponentPart` covering the rest of a literal: the empty
rest contributes exponent 0, `e`/`E` with an optional sign and decimal
digits contributes that exponent, anything else fails the parse. -/
def exponentPart? (cs : List Char) : Option Int :=
  match cs with
  | [] => some 0
  | c :: rest =>
    if c = 'e' ∨ c = 'E' then
      match rest with
      | [] => none
      | c2 :: rest2 =>
        if c2 = '+' then
          match decDigitsVal? rest2 with
          | some n => some (n : Int)
          | none => none
        else if c2 = '-' then
          match decDigitsVal? rest2 with
          | some n => some (-(n : Int))
          | none => none
        else
          match decDigitsVal? rest with
          | some n => some (n : Int)
          | none => none
    else none

/-- ECMA-262 `StrUnsignedDecimalLiteral` without the `Infinity`
alternative, returned as mantissa and decimal exponent: decimal digits
with an optional fraction and exponent, or a leading dot with digits,
denote `mantissa * 10 ^ exponent` (the fraction digits are folded into
the mantissa and subtracted from the exponent). -/
def strUnsignedDecimal? (cs : List Char) : Option (Nat × Int) :=
  let intPart := cs.takeWhile fun c => (charDigit? c).isSome
  let rest := cs.dropWhile fun c => (charDigit? c).isSome
  match rest with
  | '.' :: rest2 =>
    let fracPart := rest2.takeWhile fun c => (charDigit? c).isSome
    let rest3 := rest2.dropWhile fun c => (charDigit? c).isSome
    if intPart.isEmpty && fracPart.isEmpty then none
    else
      match exponentPart? rest3 with
      | none => none
      | some e =>
        some (decRunVal intPart * 10 ^ fracPart.length + decRunVal fracPart,
          e - (fracPart.length : Int))
  | _ =>
    if intPart.isEmpty then none
    else
      match exponentPart? rest with
      | none => none
      | some e => some (decRunVal intPart, e)

/-- The exact rational `mantissa * 10 ^ exponent`, negated when `neg`:
the mathematical value of a parsed decimal literal. -/
def decValue (neg : Bool) (mant : Nat) (e : Int) : ℚ :=
  let m : Int := if neg then -(mant : Int) else (mant : Int)
  if 0 ≤ e then mkRat (m * ((10 ^ e.toNat : Nat) : Int)) 1
  else mkRat m (10 ^ (-e).toNat)

/-- The character list of the keyword `Infinity`. -/
def infinityChars : List Char := ['I', 'n', 'f', 'i', 'n', 'i', 't', 'y']

/-- JavaScript's `Number(s)` on strings, ECMA-262 `StringToNumber`:
strip JS whitespace; the empty remainder is 0; an unsigned `0x`/`0o`/
`0b` literal is parsed in its radix; otherwise an optional sign precedes
`Infinity` or an unsigned decimal literal; any remaining shape is `NaN`.
Finite values are exact rationals (see `JsNum`). -/
def jsNumberOfString (s : String) : JsNum :=
  match jsTrim s.data with
  | [] => JsNum.num 0
  | c :: cs =>
    if c = '0' ∧ (cs.head? = some 'x' ∨ cs.head? = some 'X') then
      match radixValue? hexDigit? 16 cs.tail with
      | some n => JsNum.num (mkRat n 1)
      | none => JsNum.nan
    else if c = '0' ∧ (cs.head? = some 'o' ∨ cs.head? = some 'O') then
      match radixValue? octDigit? 8 cs.tail with
      | some n => JsNum.num (mkRat n 1)
      | none => JsNum.nan
    else if c = '0' ∧ (cs.head? = some 'b' ∨ cs.head? = some 'B') then
      match radixValue? binDigit? 2 cs.tail with
      | some n => JsNum.num (mkRat n 1)
      | none => JsNum.nan
    else if c = '+' then
      if cs = infinityChars then JsNum.inf
      else
        match strUnsignedDecimal? cs with
        | some me => JsNum.num (decValue false me.1 me.2)
        | none => JsNum.nan
    else if c = '-' then
      if cs = infinityChars then JsNum.negInf
      else
        match strUnsignedDecimal? cs with
        | some me => JsNum.num (decValue true me.1 me.2)
        | none => JsNum.nan
    else if c :: cs = infinityChars then JsNum.inf
    else
      match strUnsignedDecimal? (c :: cs) with
      | some me => JsNum.num (decValue false me.1 me.2)
      | none => JsNum.nan

/-- The best-score initializer `Number(localStorage.getItem("snake.best") || 0)`:
`getItem` yields `none` when the key is absent; `null` and the empty
string are falsy, so `x || 0` turns them into the number 0; any other
string goes through `Number`. -/
def loadBest (stored : Option String) : JsNum :=
  match stored with
  | none => JsNum.num 0
  | some s => if s = "" then JsNum.num 0 else jsNumberOfString s

end Snake

namespace Lock

/-- `TOLERANCE = 2` in `src/src/App.tsx`. -/
def TOLERANCE : Int := 2

/-- The unlocked check of the effect in `src/src/App.tsx` lines 28–36:
`currentPositions.every((pos, i) => Math.abs(pos - targetPositions[i]) <= TOLERANCE)`.
Indexing `targetPositions` out of range yields `undefined` in the
source, making the comparison false, hence the `none => false` arm. -/
def isUnlocked (targetPositions currentPositions : List Int) : Bool :=
  currentPositions.enum.all fun p =>
    match targetPositions.get? p.1 with
    | some t => ((p.2 - t).natAbs : Int) ≤ TOLERANCE
    | none => false

end Lock

namespace Snake

/-- A cell returned by `randomEmptyCell` is unoccupied: it avoids the
snake body, the obstacles, the food cell and the poison cell that make
up the `occupied` set. -/
theorem randomEmptyCell_not_occupied {s : List Vec} {o : Finset Vec}
    {f p : Option Vec} {d : List Vec} {v : Vec}
    (h : randomEmptyCell s o f p d = some v) :
    v ∉ s ∧ v ∉ o ∧ f ≠ some v ∧ p ≠ some v := by
  have hfind := List.find?_some h
  simp only [occupiedCell, Bool.not_eq_true', Bool.or_eq_false_iff,
    decide_eq_false_iff_not] at hfind
  tauto

/-- The four direction vectors of the `DIRS` table (up, down, left, right). -/
def dirsList : List Vec := [⟨0, -1⟩, ⟨0, 1⟩, ⟨-1, 0⟩, ⟨1, 0⟩]

end Snake

/-- C7: the direction resolution step keeps the active direction when the
pending direction is its exact opposite vector, adopts the pending
direction in every other case, and — for the four direction vectors the
game ever uses — never yields the 180-degree reversal of the active
direction. -/
theorem Snake.validateTurn_resolution (d p : Snake.Vec) :
    (p.x = -d.x ∧ p.y = -d.y → Snake.validateTurn d p = d) ∧
    (¬(p.x = -d.x ∧ p.y = -d.y) → Snake.validateTurn d p = p) ∧
    (d ∈ Snake.dirsList →
      Snake.validateTurn d p ≠ (⟨-d.x, -d.y⟩ : Snake.Vec)) := by
  refine ⟨?_, ?_, ?_⟩
  · rintro ⟨h1, h2⟩
    unfold Snake.validateTurn
    rw [if_pos ⟨by omega, by omega⟩]
  · intro h
    unfold Snake.validateTurn
    rw [if_neg]
    rintro ⟨h1, h2⟩
    exact h ⟨by omega, by omega⟩
  · intro hd heq
    unfold Snake.validateTurn at heq
    split at heq
    · rename_i hc
      obtain ⟨h1, h2⟩ := hc
      have hx := congrArg Snake.Vec.x heq
      have hy := congrArg Snake.Vec.y heq
      simp only at hx hy
      clear heq h1 h2
      simp only [Snake.dirsList, List.mem_cons, List.not_mem_nil, or_false] at hd
      rcases hd with h | h | h | h <;> subst h <;> dsimp only at hx hy <;> omega
    · rename_i hc
      have hx := congrArg Snake.Vec.x heq
      have hy := congrArg Snake.Vec.y heq
      simp only at hx hy
      exact hc ⟨by omega, by omega⟩

/-- Witness for C7: going right, a pending left is rejected while a
pending down is adopted. -/
theorem Snake.validateTurn_resolution_witness :
    Snake.validateTurn ⟨1, 0⟩ ⟨-1, 0⟩ = ⟨1, 0⟩ ∧
    Snake.validateTurn ⟨1, 0⟩ ⟨0, 1⟩ = ⟨0, 1⟩ :=
  ⟨(Snake.validateTurn_resolution ⟨1, 0⟩ ⟨-1, 0⟩).1 (by norm_num),
   (Snake.validateTurn_resolution ⟨1, 0⟩ ⟨0, 1⟩).2.1 (by norm_num)⟩

/-- C6: `makeCode` yields the fixed success code "4712" exactly for
scores of at least 100 and the fixed placeholder exactly for lower
scores; in particular score 100 unlocks and score 99 does not. -/
theorem Snake.makeCode_unlock (s e : Int) :
    (Snake.makeCode s e = "4712" ↔ 100 ≤ s) ∧
    (Snake.makeCode s e = "Code non débloqué" ↔ s < 100) ∧
    Snake.makeCode 100 e = "4712" ∧
    Snake.makeCode 99 e = "Code non débloqué" := by
  have hne : ("4712" : String) ≠ "Code non débloqué" := by decide
  refine ⟨?_, ?_, by norm_num [Snake.makeCode], by norm_num [Snake.makeCode]⟩ <;>
  · unfold Snake.makeCode
    split <;> rename_i h <;> simp [hne, hne.symm] <;> omega

/-- C8: on every game end `endGame` sets the recorded best score to the
maximum of the previous best and the final score, so the best score
never decreases. -/
theorem Snake.endGame_best_max (g : Snake.Game) (r : Snake.Reason) :
    (Snake.endGame g r).best = max g.best g.score ∧
    g.best ≤ (Snake.endGame g r).best := by
  unfold Snake.endGame
  exact ⟨rfl, le_max_left _ _⟩

namespace Snake

/-- Once the decimal accumulator has failed it stays failed. -/
theorem decDigitStep_none (cs : List Char) :
    cs.foldl decDigitStep none = none := by
  induction cs with
  | nil => rfl
  | cons c cs ih => simpa [decDigitStep] using ih

/-- A character list containing a non-digit has no decimal value. -/
theorem decDigitsVal?_eq_none {cs : List Char} {c : Char}
    (hc : c ∈ cs) (hd : charDigit? c = none) : decDigitsVal? cs = none := by
  have key : ∀ (l : List Char), c ∈ l → ∀ acc : Option Nat,
      l.foldl decDigitStep acc = none := by
    intro l
    induction l with
    | nil => intro h; cases h
    | cons a l ih =>
      intro h acc
      rcases List.mem_cons.mp h with h | h
      · subst h
        have hstep : decDigitStep acc c = none := by
          cases acc <;> simp [decDigitStep, hd]
        rw [List.foldl_cons, hstep, decDigitStep_none]
      · exact ih h _
  cases cs with
  | nil => cases hc
  | cons a l => exact key _ hc _

end Snake

/-- Counterexample to C9 as stated: the stored value "abc" is not
parseable as a number, yet the startup read yields `NaN` — a
non-numeric result — rather than the default 0. -/
theorem Snake.loadBest_unparseable_not_zero :
    Snake.loadBest (some "abc") = Snake.JsNum.nan ∧
    Snake.JsNum.nan ≠ Snake.JsNum.num 0 := by
  exact ⟨by decide, by decide⟩

/-- C9 (amended): an absent stored value or an empty stored string makes
the startup read yield the default 0; every other stored string is
passed to `Number` unprotected, so a string `Number` cannot parse —
such as "abc" — yields `NaN` rather than the default 0, while strings
`Number` does parse (whitespace-padded, plus-signed, fractional,
exponent, hex, whitespace-only) yield their numeric values. -/
theorem Snake.loadBest_cases (s : String) :
    Snake.loadBest none = Snake.JsNum.num 0 ∧
    (s = "" → Snake.loadBest (some s) = Snake.JsNum.num 0) ∧
    (s ≠ "" → Snake.loadBest (some s) = Snake.jsNumberOfString s) ∧
    (s ≠ "" → Snake.jsNumberOfString s = Snake.JsNum.nan →
      Snake.loadBest (some s) = Snake.JsNum.nan) ∧
    Snake.jsNumberOfString "abc" = Snake.JsNum.nan ∧
    Snake.jsNumberOfString " 5" = Snake.JsNum.num 5 ∧
    Snake.jsNumberOfString "+5" = Snake.JsNum.num 5 ∧
    Snake.jsNumberOfString "1.5" = Snake.JsNum.num (mkRat 3 2) ∧
    Snake.jsNumberOfString "1e3" = Snake.JsNum.num 1000 ∧
    Snake.jsNumberOfString "0x1F" = Snake.JsNum.num 31 ∧
    Snake.jsNumberOfString "  " = Snake.JsNum.num 0 ∧
    Snake.jsNumberOfString "Infinity" = Snake.JsNum.inf := by
  have hpass : s ≠ "" → Snake.loadBest (some s) = Snake.jsNumberOfString s := by
    intro hne
    simp [Snake.loadBest, hne]
  refine ⟨rfl, ?_, hpass, ?_, ?_, ?_, ?_, ?_, ?_, ?_, ?_, ?_⟩
  · intro h
    subst h
    rfl
  · intro hne hnan
    rw [hpass hne]
    exact hnan
  · decide
  · decide
  · decide
  · decide
  · decide
  · decide
  · decide
  · decide

/-- Witness for C9's amended theorem: the corrupted stored value "abc"
reads straight through `Number` and back as `NaN`, not 0. -/
theorem Snake.loadBest_cases_witness :
    Snake.loadBest (some "abc") = Snake.jsNumberOfString "abc" ∧
    Snake.loadBest (some "abc") = Snake.JsNum.nan :=
  ⟨(Snake.loadBest_cases "abc").2.2.1 (by decide),
   (Snake.loadBest_cases "abc").2.2.2.1 (by decide) (by decide)⟩

/-- C5: for target/current vectors of length 8 with values in [0,100),
the unlocked check is true exactly when every index satisfies the
tolerance-2 condition on the absolute difference. -/
theorem Lock.isUnlocked_iff_tolerance (target current : List Int)
    (ht : target.length = 8) (hc : current.length = 8)
    (htr : ∀ v ∈ target, 0 ≤ v ∧ v < 100)
    (hcr : ∀ v ∈ current, 0 ≤ v ∧ v < 100) :
    Lock.isUnlocked target current = true ↔
      ∀ i : Nat, i < 8 →
        ((current.getD i 0) - (target.getD i 0)).natAbs ≤ 2 := by
  unfold Lock.isUnlocked
  rw [List.all_eq_true]
  constructor
  · intro h i hi
    have hci : i < current.length := by omega
    have hti : i < target.length := by omega
    have hcg : current.get? i = some (current.get ⟨i, hci⟩) := by
      simp [List.get?_eq_getElem?, List.getElem?_eq_getElem hci]
    have htg : target.get? i = some (target.get ⟨i, hti⟩) := by
      simp [List.get?_eq_getElem?, List.getElem?_eq_getElem hti]
    have hmem : (i, current.get ⟨i, hci⟩) ∈ current.enum := by
      apply List.mem_enum_iff_getElem?.mpr
      rw [← List.get?_eq_getElem?]
      exact hcg
    have hpred := h _ hmem
    simp only at hpred
    rw [htg] at hpred
    simp only [decide_eq_true_eq, Lock.TOLERANCE] at hpred
    simp only [List.getD, hcg, htg, Option.getD_some]
    omega
  · intro h p hp
    obtain ⟨i, cv⟩ := p
    have hig : current[i]? = some cv := List.mem_enum_iff_getElem?.mp hp
    have hci : i < current.length := by
      by_contra hlt
      rw [List.getElem?_eq_none (by omega)] at hig
      cases hig
    have hti : i < target.length := by omega
    have htg : target.get? i = some (target.get ⟨i, hti⟩) := by
      simp [List.get?_eq_getElem?, List.getElem?_eq_getElem hti]
    have hd := h i (by omega)
    have higq : current.get? i = some cv := by
      rw [List.get?_eq_getElem?]
      exact hig
    simp only [List.getD, higq, htg, Option.getD_some] at hd
    simp only
    rw [htg]
    simp only [decide_eq_true_eq, Lock.TOLERANCE]
    omega

/-- Witness for C5: a current vector within tolerance 2 of its target at
every pin unlocks the lock. -/
theorem Lock.isUnlocked_iff_tolerance_witness :
    Lock.isUnlocked [10, 20, 30, 40, 50, 60, 70, 80]
      [12, 18, 30, 41, 49, 62, 70, 78] = true :=
  (Lock.isUnlocked_iff_tolerance [10, 20, 30, 40, 50, 60, 70, 80]
      [12, 18, 30, 41, 49, 62, 70, 78]
      (by decide) (by decide) (by decide) (by decide)).mpr (by decide)

namespace Snake

/-- Characterization of a successful `foodStep`: either the head was on
the food and the state gains 5 points, a relocated food and a faster
tick with `grew = true`, or the head was not on the food and nothing
changes. -/
theorem foodStep_eq {g : Game} {head : Vec} {fd : List Vec}
    {out : Game × Bool} (h : foodStep g head fd = some out) :
    (g.food = some head ∧
      ∃ f, randomEmptyCell g.snake g.obstacles g.food g.poison fd = some f ∧
        out = ({ g with score := g.score + 5
                        food := some f
                        tickMs := max MIN_SPEED_MS (g.tickMs - 4) }, true)) ∨
    (g.food ≠ some head ∧ out = (g, false)) := by
  unfold foodStep at h
  split at h
  · rename_i hf
    left
    refine ⟨hf, ?_⟩
    split at h
    · cases h
    · rename_i f hre
      cases h
      exact ⟨f, hre, rfl⟩
  · rename_i hf
    right
    cases h
    exact ⟨hf, rfl⟩

/-- Characterization of a successful `obstacleStep`: either one fresh
cell was inserted into the obstacles, or the state is unchanged. -/
theorem obstacleStep_eq {g : Game} {od : List Vec} {g6 : Game}
    (h : obstacleStep g od = some g6) :
    (∃ o, randomEmptyCell g.snake g.obstacles g.food g.poison od = some o ∧
      g6 = { g with obstacles := insert o g.obstacles }) ∨
    g6 = g := by
  unfold obstacleStep at h
  split at h
  · split at h
    · cases h
    · rename_i o hre
      cases h
      exact Or.inl ⟨o, hre, rfl⟩
  · cases h
    exact Or.inr rfl

/-- Characterization of a successful `poisonSpawnStep`: on the poison
cadence the poison is either respawned on a fresh cell (successful
roll) or cleared (failed roll); off the cadence nothing changes. -/
theorem poisonSpawnStep_eq {g : Game} {roll : Bool} {pd : List Vec}
    {g7 : Game} (h : poisonSpawnStep g roll pd = some g7) :
    (g.tickCount % POISON_INTERVAL_TICKS = 0 ∧ roll = true ∧
      ∃ p, randomEmptyCell g.snake g.obstacles g.food g.poison pd = some p ∧
        g7 = { g with poison := some p }) ∨
    (g.tickCount % POISON_INTERVAL_TICKS = 0 ∧ roll = false ∧
      g7 = { g with poison := none }) ∨
    (g.tickCount % POISON_INTERVAL_TICKS ≠ 0 ∧ g7 = g) := by
  unfold poisonSpawnStep at h
  split at h
  · rename_i hcad
    split at h
    · rename_i hroll
      split at h
      · cases h
      · rename_i p hre
        cases h
        exact Or.inl ⟨hcad, hroll, p, hre, rfl⟩
    · rename_i hroll
      cases h
      exact Or.inr (Or.inl ⟨hcad, by simpa using hroll, rfl⟩)
  · rename_i hcad
    cases h
    exact Or.inr (Or.inr ⟨hcad, rfl⟩)

/-- A successful `tick` on a non-empty snake either took the hit branch
(ending the game and touching nothing but the resolved direction, the
best score and the phase) or passed the collision checks and ran the
food, poison, trim, counter, obstacle-spawn and poison-spawn stages in
order. -/
theorem tick_eq {g : Game} {fd od pd : List Vec} {roll : Bool} {g' : Game}
    {h0 : Vec} {t : List Vec} {d head : Vec}
    (hs : g.snake = h0 :: t)
    (hd : d = validateTurn g.dir g.nextDir)
    (hh : head = ⟨h0.x + d.x, h0.y + d.y⟩)
    (h : tick g fd od pd roll = some g') :
    ((within head = false ∨ head ∈ g.obstacles ∨ head ∈ g.snake) ∧
      g' = endGame { g with dir := d } Reason.hit) ∨
    (within head = true ∧ head ∉ g.obstacles ∧ head ∉ g.snake ∧
      ∃ g2 grew g6,
        foodStep { g with dir := d, snake := head :: g.snake } head fd
          = some (g2, grew) ∧
        obstacleStep { trimStep (poisonStep g2 head) grew with
          tickCount := (trimStep (poisonStep g2 head) grew).tickCount + 1 } od
          = some g6 ∧
        poisonSpawnStep g6 roll pd = some g') := by
  subst hd
  subst hh
  have hh0 : g.snake.head? = some h0 := by rw [hs]; rfl
  unfold tick at h
  rw [hh0] at h
  simp only [Option.bind_eq_bind, Option.some_bind] at h
  split at h
  · rename_i hc
    cases h
    refine Or.inl ⟨?_, rfl⟩
    simpa [Bool.not_eq_true'] using hc
  · rename_i hc
    rw [not_or, not_or] at hc
    obtain ⟨hcw, hcob, hcbody⟩ := hc
    refine Or.inr ⟨by simpa [Bool.not_eq_true'] using hcw, hcob, hcbody, ?_⟩
    rcases hfs : (foodStep { g with
        dir := validateTurn g.dir g.nextDir
        snake := (⟨h0.x + (validateTurn g.dir g.nextDir).x,
                   h0.y + (validateTurn g.dir g.nextDir).y⟩ : Vec) :: g.snake }
        ⟨h0.x + (validateTurn g.dir g.nextDir).x,
         h0.y + (validateTurn g.dir g.nextDir).y⟩ fd) with _ | ⟨g2, grew⟩
    · rw [hfs] at h
      simp at h
    · rw [hfs] at h
      simp only [Option.some_bind] at h
      rcases hos : (obstacleStep { trimStep (poisonStep g2
          ⟨h0.x + (validateTurn g.dir g.nextDir).x,
           h0.y + (validateTurn g.dir g.nextDir).y⟩) grew with
          tickCount := (trimStep (poisonStep g2
            ⟨h0.x + (validateTurn g.dir g.nextDir).x,
             h0.y + (validateTurn g.dir g.nextDir).y⟩) grew).tickCount + 1 }
          od) with _ | g6
      · rw [hos] at h
        simp at h
      · rw [hos] at h
        simp only [Option.some_bind] at h
        refine ⟨g2, grew, g6, rfl, hos, ?_⟩
        rcases hps : (poisonSpawnStep g6 roll pd) with _ | g7
        · rw [hps] at h
          simp at h
        · rw [hps] at h
          simp only [Option.some_bind] at h
          simpa using h

end Snake

namespace Snake

/-- Fields of the game that `foodStep` never touches. -/
theorem foodStep_fix {g : Game} {head : Vec} {fd : List Vec} {g2 : Game}
    {grew : Bool} (h : foodStep g head fd = some (g2, grew)) :
    g2.snake = g.snake ∧ g2.obstacles = g.obstacles ∧ g2.poison = g.poison ∧
    g2.tickCount = g.tickCount ∧ g2.phase = g.phase ∧ g2.best = g.best := by
  rcases foodStep_eq h with ⟨hf, f, hre, heq⟩ | ⟨hf, heq⟩ <;>
    rw [Prod.ext_iff] at heq <;> obtain ⟨hg2, -⟩ := heq <;> subst hg2 <;>
    exact ⟨rfl, rfl, rfl, rfl, rfl, rfl⟩

/-- Fields of the game that `poisonStep` never touches. -/
theorem poisonStep_fix (g : Game) (head : Vec) :
    (poisonStep g head).snake = g.snake ∧
    (poisonStep g head).food = g.food ∧
    (poisonStep g head).obstacles = g.obstacles ∧
    (poisonStep g head).tickCount = g.tickCount ∧
    (poisonStep g head).phase = g.phase ∧
    (poisonStep g head).best = g.best := by
  unfold poisonStep
  split <;> exact ⟨rfl, rfl, rfl, rfl, rfl, rfl⟩

/-- `poisonStep` on a head that is not on the poison is the identity. -/
theorem poisonStep_not {g : Game} {head : Vec} (h : g.poison ≠ some head) :
    poisonStep g head = g := by
  unfold poisonStep
  rw [if_neg h]

/-- `poisonStep` on a head that is on the poison: minus 7 points, faster
tick, poison cleared. -/
theorem poisonStep_hit {g : Game} {head : Vec} (h : g.poison = some head) :
    poisonStep g head =
      { g with score := g.score - 7
               tickMs := max MIN_SPEED_MS (g.tickMs - 8)
               poison := none } := by
  unfold poisonStep
  rw [if_pos h]

/-- Fields of the game that `trimStep` never touches, and its effect on
the snake. -/
theorem trimStep_fix (g : Game) (grew : Bool) :
    (trimStep g grew).food = g.food ∧ (trimStep g grew).poison = g.poison ∧
    (trimStep g grew).obstacles = g.obstacles ∧
    (trimStep g grew).score = g.score ∧
    (trimStep g grew).tickMs = g.tickMs ∧
    (trimStep g grew).tickCount = g.tickCount ∧
    (trimStep g grew).phase = g.phase ∧
    (trimStep g grew).best = g.best := by
  unfold trimStep
  split <;> exact ⟨rfl, rfl, rfl, rfl, rfl, rfl, rfl, rfl⟩

/-- The snake after `trimStep`: unchanged when the snake grew, tail
dropped otherwise. -/
theorem trimStep_snake (g : Game) (grew : Bool) :
    (trimStep g grew).snake =
      if grew then g.snake else g.snake.dropLast := by
  unfold trimStep
  split <;> rfl

/-- Fields of the game that `obstacleStep` never touches. -/
theorem obstacleStep_fix {g : Game} {od : List Vec} {g6 : Game}
    (h : obstacleStep g od = some g6) :
    g6.snake = g.snake ∧ g6.food = g.food ∧ g6.poison = g.poison ∧
    g6.score = g.score ∧ g6.tickMs = g.tickMs ∧
    g6.tickCount = g.tickCount ∧ g6.phase = g.phase ∧ g6.best = g.best := by
  rcases obstacleStep_eq h with ⟨o, -, rfl⟩ | rfl <;>
    exact ⟨rfl, rfl, rfl, rfl, rfl, rfl, rfl, rfl⟩

/-- Fields of the game that `poisonSpawnStep` never touches. -/
theorem poisonSpawnStep_fix {g : Game} {roll : Bool} {pd : List Vec}
    {g7 : Game} (h : poisonSpawnStep g roll pd = some g7) :
    g7.snake = g.snake ∧ g7.food = g.food ∧ g7.obstacles = g.obstacles ∧
    g7.score = g.score ∧ g7.tickMs = g.tickMs ∧
    g7.tickCount = g.tickCount ∧ g7.phase = g.phase ∧ g7.best = g.best := by
  rcases poisonSpawnStep_eq h with ⟨-, -, p, -, rfl⟩ | ⟨-, -, rfl⟩ | ⟨-, rfl⟩ <;>
    exact ⟨rfl, rfl, rfl, rfl, rfl, rfl, rfl, rfl⟩

/-- `tick` on an empty snake faults (the source would index `undefined`). -/
theorem tick_nil {g : Game} {fd od pd : List Vec} {roll : Bool}
    (hsn : g.snake = []) : tick g fd od pd roll = none := by
  unfold tick
  rw [hsn]
  rfl

end Snake

/-- C1: a `tick` from a running configuration whose body has no
duplicate cells yields a body that still has no duplicate cells: the
head is only pushed after the self-collision check rejected it as a
`hit`, and the tail is dropped unless the snake grew. -/
theorem Snake.tick_preserves_nodup (g : Snake.Game)
    (fd od pd : List Snake.Vec) (roll : Bool) (g' : Snake.Game)
    (hrun : g.phase = Snake.Phase.running)
    (hnd : g.snake.Nodup)
    (h : Snake.tick g fd od pd roll = some g') :
    g'.snake.Nodup := by
  cases hsn : g.snake with
  | nil =>
      rw [Snake.tick_nil hsn] at h
      cases h
  | cons h0 t =>
      rcases Snake.tick_eq hsn rfl rfl h with ⟨hc, rfl⟩ |
        ⟨hw, hob, hbody, g2, grew, g6, hfs, hos, hps⟩
      · have : (Snake.endGame { g with
            dir := Snake.validateTurn g.dir g.nextDir }
            Snake.Reason.hit).snake = g.snake := rfl
        rw [this]
        exact hnd
      · have hcons : ((⟨h0.x + (Snake.validateTurn g.dir g.nextDir).x,
            h0.y + (Snake.validateTurn g.dir g.nextDir).y⟩ : Snake.Vec) ::
            g.snake).Nodup := List.nodup_cons.mpr ⟨hbody, hnd⟩
        have h2s := (Snake.foodStep_fix hfs).1
        have h6s := (Snake.obstacleStep_fix hos).1
        have h7s := (Snake.poisonSpawnStep_fix hps).1
        rw [h7s, h6s]
        show (Snake.trimStep (Snake.poisonStep g2 _) grew).snake.Nodup
        rw [Snake.trimStep_snake, (Snake.poisonStep_fix g2 _).1, h2s]
        show (if grew then _ :: g.snake else
          ((_ :: g.snake).dropLast : List Snake.Vec)).Nodup
        split
        · exact hcons
        · exact List.Nodup.sublist (List.dropLast_sublist _) hcons

/-- A small concrete running configuration used to witness C1: a
two-cell snake heading right into free space. -/
def Snake.sampleNodupGame : Snake.Game :=
  { snake := [⟨3, 3⟩, ⟨2, 3⟩]
    dir := ⟨1, 0⟩
    nextDir := ⟨1, 0⟩
    food := some ⟨10, 10⟩
    poison := none
    obstacles := ∅
    score := 0
    tickMs := 140
    timeLeft := 75
    tickCount := 0
    best := 0
    phase := Snake.Phase.running }

/-- Witness for C1: one concrete passing tick keeps the body
duplicate-free. -/
theorem Snake.tick_preserves_nodup_witness :
    (Snake.tick Snake.sampleNodupGame [] [] [] false).elim False
      (fun g' => g'.snake.Nodup) := by
  cases htick : Snake.tick Snake.sampleNodupGame [] [] [] false with
  | none =>
      have hsome : (Snake.tick Snake.sampleNodupGame [] [] [] false).isSome
          = true := by decide
      rw [htick] at hsome
      cases hsome
  | some g' =>
      simp only [Option.elim]
      exact Snake.tick_preserves_nodup Snake.sampleNodupGame [] [] [] false g'
        (by decide) (by decide) htick

/-- C2: when the computed new head is out of the grid, on an obstacle or
on the body, `tick` moves to `gameover` with reason `hit` and performs no
other mutation: only the resolved direction, the best score and the
phase change, while body, obstacles, food, poison, score, tick interval,
time left and tick counter keep their previous values (the result is the
input record with only those three fields updated). -/
theorem Snake.tick_hit_frozen (g : Snake.Game) (h0 d head : Snake.Vec)
    (t : List Snake.Vec) (fd od pd : List Snake.Vec) (roll : Bool)
    (hrun : g.phase = Snake.Phase.running)
    (hs : g.snake = h0 :: t)
    (hd : d = Snake.validateTurn g.dir g.nextDir)
    (hh : head = ⟨h0.x + d.x, h0.y + d.y⟩)
    (hhit : Snake.within head = false ∨ head ∈ g.obstacles ∨
      head ∈ g.snake) :
    Snake.tick g fd od pd roll =
      some { g with dir := d
                    best := max g.best g.score
                    phase := Snake.Phase.gameover
                      (Snake.makeCode g.score
                        (Snake.TIME_LIMIT_S - g.timeLeft))
                      Snake.Reason.hit } := by
  subst hd
  subst hh
  have hh0 : g.snake.head? = some h0 := by rw [hs]; rfl
  unfold Snake.tick
  rw [hh0]
  simp only [Option.bind_eq_bind, Option.some_bind]
  split
  · rfl
  · rename_i hc
    exfalso
    rw [not_or, not_or] at hc
    obtain ⟨hcw, hcob, hcbody⟩ := hc
    rcases hhit with hw | hm | hm
    · simp [hw] at hcw
    · exact hcob hm
    · exact hcbody hm

/-- A concrete running configuration about to bite its own body, used to
witness C2. -/
def Snake.sampleHitGame : Snake.Game :=
  { snake := [⟨3, 3⟩, ⟨4, 3⟩]
    dir := ⟨1, 0⟩
    nextDir := ⟨1, 0⟩
    food := some ⟨10, 10⟩
    poison := none
    obstacles := ∅
    score := 12
    tickMs := 100
    timeLeft := 50
    tickCount := 7
    best := 3
    phase := Snake.Phase.running }

/-- Witness for C2: biting the own body ends the concrete game with
reason `hit` and freezes every other field. -/
theorem Snake.tick_hit_frozen_witness :
    Snake.tick Snake.sampleHitGame [] [] [] false =
      some { Snake.sampleHitGame with
             dir := ⟨1, 0⟩
             best := max 3 12
             phase := Snake.Phase.gameover
               (Snake.makeCode 12 (Snake.TIME_LIMIT_S - 50))
               Snake.Reason.hit } :=
  Snake.tick_hit_frozen Snake.sampleHitGame ⟨3, 3⟩ ⟨1, 0⟩ ⟨4, 3⟩
    [⟨4, 3⟩] [] [] [] false (by decide) (by decide) (by decide) (by decide)
    (Or.inr (Or.inr (by decide)))

/-- Witness for C6: the boundary scores 100 and 99. -/
theorem Snake.makeCode_unlock_witness :
    Snake.makeCode 100 0 = "4712" ∧
    Snake.makeCode 99 0 = "Code non débloqué" :=
  ⟨(Snake.makeCode_unlock 100 0).2.2.1, (Snake.makeCode_unlock 99 0).2.2.2⟩

/-- Witness for C8: ending a concrete game raises the best score to the
maximum of the old best (3) and the final score (12). -/
theorem Snake.endGame_best_max_witness :
    (Snake.endGame Snake.sampleHitGame Snake.Reason.timeout).best =
      max Snake.sampleHitGame.best Snake.sampleHitGame.score ∧
    Snake.sampleHitGame.best ≤
      (Snake.endGame Snake.sampleHitGame Snake.Reason.timeout).best :=
  ⟨(Snake.endGame_best_max Snake.sampleHitGame Snake.Reason.timeout).1,
   (Snake.endGame_best_max Snake.sampleHitGame Snake.Reason.timeout).2⟩

/-- `trimStep` is the identity when the snake grew. -/
theorem Snake.trimStep_true (g : Snake.Game) :
    Snake.trimStep g true = g := by
  unfold Snake.trimStep
  simp

/-- C3: a tick whose new head is on the food (and which passes the
collision checks and does not simultaneously sit on the poison) adds
exactly 5 to the score, grows the body by exactly one cell, lowers the
tick interval by the 4 ms food step floored at `MIN_SPEED_MS`, and
relocates the food to a cell occupied by neither the grown body, nor any
obstacle (old or freshly spawned), nor the poison cell. -/
theorem Snake.tick_food_effects (g : Snake.Game) (h0 d head : Snake.Vec)
    (t : List Snake.Vec) (fd od pd : List Snake.Vec) (roll : Bool)
    (g' : Snake.Game)
    (hrun : g.phase = Snake.Phase.running)
    (hs : g.snake = h0 :: t)
    (hd : d = Snake.validateTurn g.dir g.nextDir)
    (hh : head = ⟨h0.x + d.x, h0.y + d.y⟩)
    (hw : Snake.within head = true)
    (hob : head ∉ g.obstacles)
    (hbody : head ∉ g.snake)
    (hfood : g.food = some head)
    (hpois : g.poison ≠ some head)
    (ht : Snake.tick g fd od pd roll = some g') :
    g'.score = g.score + 5 ∧
    g'.snake.length = g.snake.length + 1 ∧
    g'.tickMs = max Snake.MIN_SPEED_MS (g.tickMs - 4) ∧
    ∃ f, g'.food = some f ∧ f ∉ g'.snake ∧ f ∉ g.obstacles ∧
      f ∉ g'.obstacles ∧ g.poison ≠ some f := by
  rcases Snake.tick_eq hs hd hh ht with ⟨hc, -⟩ |
    ⟨-, -, -, g2, grew, g6, hfs, hos, hps⟩
  · rcases hc with hcw | hcm | hcm
    · rw [hw] at hcw
      cases hcw
    · exact absurd hcm hob
    · exact absurd hcm hbody
  · rcases Snake.foodStep_eq hfs with ⟨-, f, hre, heq⟩ | ⟨hf1, -⟩
    · rw [Prod.mk.injEq] at heq
      obtain ⟨hg2, hgrew⟩ := heq
      subst hgrew
      obtain ⟨hf_ns, hf_no, hf_nf, hf_np⟩ :=
        Snake.randomEmptyCell_not_occupied hre
      have hg2sc : g2.score = g.score + 5 := by rw [hg2]
      have hg2sn : g2.snake = head :: g.snake := by rw [hg2]
      have hg2f : g2.food = some f := by rw [hg2]
      have hg2p : g2.poison = g.poison := by rw [hg2]
      have hg2o : g2.obstacles = g.obstacles := by rw [hg2]
      have hg2ms : g2.tickMs = max Snake.MIN_SPEED_MS (g.tickMs - 4) := by
        rw [hg2]
      have hns : Snake.poisonStep g2 head = g2 :=
        Snake.poisonStep_not (by rw [hg2p]; exact hpois)
      rw [hns, Snake.trimStep_true] at hos
      obtain ⟨hps_sn, hps_f, hps_o, hps_sc, hps_ms, -, -, -⟩ :=
        Snake.poisonSpawnStep_fix hps
      obtain ⟨hos_sn, hos_f, hos_p, hos_sc, hos_ms, -, -, -⟩ :=
        Snake.obstacleStep_fix hos
      refine ⟨?_, ?_, ?_, f, ?_, ?_, ?_, ?_, ?_⟩
      · rw [hps_sc, hos_sc]
        show g2.score = g.score + 5
        exact hg2sc
      · rw [hps_sn, hos_sn]
        show g2.snake.length = g.snake.length + 1
        rw [hg2sn]
        rfl
      · rw [hps_ms, hos_ms]
        show g2.tickMs = max Snake.MIN_SPEED_MS (g.tickMs - 4)
        exact hg2ms
      · rw [hps_f, hos_f]
        show g2.food = some f
        exact hg2f
      · rw [hps_sn, hos_sn]
        show f ∉ g2.snake
        rw [hg2sn]
        exact hf_ns
      · exact fun hm => hf_no hm
      · rw [hps_o]
        rcases Snake.obstacleStep_eq hos with ⟨o, hre2, hg6⟩ | hg6
        · obtain ⟨-, -, ho_nf, -⟩ := Snake.randomEmptyCell_not_occupied hre2
          rw [hg6]
          intro hmem
          rcases Finset.mem_insert.mp hmem with hfo | hfm
          · apply ho_nf
            show g2.food = some o
            rw [hg2f, hfo]
          · have hfin : f ∈ g2.obstacles := by simpa using hfm
            rw [hg2o] at hfin
            exact hf_no hfin
        · rw [hg6]
          intro hmem
          have hfin : f ∈ g2.obstacles := by simpa using hmem
          rw [hg2o] at hfin
          exact hf_no hfin
      · intro hpf
        apply hf_np
        show g.poison = some f
        exact hpf
    · exact absurd hfood hf1

/-- A concrete running configuration whose next head cell holds the
food, used to witness C3. -/
def Snake.sampleFoodGame : Snake.Game :=
  { snake := [⟨3, 3⟩, ⟨2, 3⟩]
    dir := ⟨1, 0⟩
    nextDir := ⟨1, 0⟩
    food := some ⟨4, 3⟩
    poison := none
    obstacles := ∅
    score := 0
    tickMs := 140
    timeLeft := 75
    tickCount := 0
    best := 0
    phase := Snake.Phase.running }

/-- Witness for C3: eating the food in the concrete configuration adds 5
points, grows the body by one and relocates the food to a free cell. -/
theorem Snake.tick_food_effects_witness :
    (Snake.tick Snake.sampleFoodGame [⟨7, 7⟩] [] [] false).elim False
      (fun g' => g'.score = Snake.sampleFoodGame.score + 5 ∧
        g'.snake.length = Snake.sampleFoodGame.snake.length + 1 ∧
        g'.tickMs = max Snake.MIN_SPEED_MS (Snake.sampleFoodGame.tickMs - 4) ∧
        ∃ f, g'.food = some f ∧ f ∉ g'.snake ∧
          f ∉ Snake.sampleFoodGame.obstacles ∧ f ∉ g'.obstacles ∧
          Snake.sampleFoodGame.poison ≠ some f) := by
  cases htick : Snake.tick Snake.sampleFoodGame [⟨7, 7⟩] [] [] false with
  | none =>
      have hsome : (Snake.tick Snake.sampleFoodGame [⟨7, 7⟩] [] []
          false).isSome = true := by decide
      rw [htick] at hsome
      cases hsome
  | some g' =>
      simp only [Option.elim]
      exact Snake.tick_food_effects Snake.sampleFoodGame ⟨3, 3⟩ ⟨1, 0⟩ ⟨4, 3⟩
        [⟨2, 3⟩] [⟨7, 7⟩] [] [] false g' (by decide) (by decide) (by decide)
        (by decide) (by decide) (by decide) (by decide) (by decide)
        (by decide) htick

/-- `trimStep` drops the tail cell when the snake did not grow. -/
theorem Snake.trimStep_false (g : Snake.Game) :
    Snake.trimStep g false = { g with snake := g.snake.dropLast } := by
  unfold Snake.trimStep
  simp

/-- A concrete configuration that eats the poison on the very tick whose
advanced counter hits the 23-tick poison cadence, used as the
counterexample to C4 as stated. -/
def Snake.samplePoisonRespawnGame : Snake.Game :=
  { snake := [⟨3, 3⟩, ⟨2, 3⟩]
    dir := ⟨1, 0⟩
    nextDir := ⟨1, 0⟩
    food := some ⟨10, 10⟩
    poison := some ⟨4, 3⟩
    obstacles := ∅
    score := 0
    tickMs := 140
    timeLeft := 75
    tickCount := 22
    best := 0
    phase := Snake.Phase.running }

/-- Counterexample to C4 as stated: this tick eats the poison (the score
drops by exactly 7) yet ends with poison present again — the same tick's
poison-spawn cadence (tick counter 22 → 23, 23 % 23 = 0) with a
successful 0.6 roll immediately respawns it at the fresh cell (5,5) —
so "sets poison to absent" does not hold of the completed tick. -/
theorem Snake.tick_poison_respawn_cex :
    (Snake.tick Snake.samplePoisonRespawnGame [] [] [⟨5, 5⟩] true).map
        (fun g' => (g'.score, g'.poison)) =
      some (-7, some ⟨5, 5⟩) := by decide

/-- C4 (amended): a tick whose new head is on the poison (passing the
collision checks, not on the food) subtracts exactly 7 from the score,
lowers the tick interval by the larger 8 ms step floored at
`MIN_SPEED_MS`, keeps the body length unchanged, and ends with the
poison absent — provided the advanced tick counter does not hit the
23-tick poison-spawn cadence with a successful roll on this very tick,
in which case a fresh poison is immediately respawned. -/
theorem Snake.tick_poison_effects (g : Snake.Game) (h0 d head : Snake.Vec)
    (t : List Snake.Vec) (fd od pd : List Snake.Vec) (roll : Bool)
    (g' : Snake.Game)
    (hrun : g.phase = Snake.Phase.running)
    (hs : g.snake = h0 :: t)
    (hd : d = Snake.validateTurn g.dir g.nextDir)
    (hh : head = ⟨h0.x + d.x, h0.y + d.y⟩)
    (hw : Snake.within head = true)
    (hob : head ∉ g.obstacles)
    (hbody : head ∉ g.snake)
    (hpois : g.poison = some head)
    (hfood : g.food ≠ some head)
    (hnospawn : ¬((g.tickCount + 1) % Snake.POISON_INTERVAL_TICKS = 0 ∧
      roll = true))
    (ht : Snake.tick g fd od pd roll = some g') :
    g'.score = g.score - 7 ∧
    g'.poison = none ∧
    g'.tickMs = max Snake.MIN_SPEED_MS (g.tickMs - 8) ∧
    g'.snake.length = g.snake.length := by
  rcases Snake.tick_eq hs hd hh ht with ⟨hc, -⟩ |
    ⟨-, -, -, g2, grew, g6, hfs, hos, hps⟩
  · rcases hc with hcw | hcm | hcm
    · rw [hw] at hcw
      cases hcw
    · exact absurd hcm hob
    · exact absurd hcm hbody
  · rcases Snake.foodStep_eq hfs with ⟨hf1, -⟩ | ⟨-, heq⟩
    · exact absurd hf1 hfood
    · rw [Prod.mk.injEq] at heq
      obtain ⟨hg2, hgrew⟩ := heq
      subst hgrew
      have hg2p : g2.poison = some head := by rw [hg2]; exact hpois
      have hg2sc : g2.score = g.score := by rw [hg2]
      have hg2ms : g2.tickMs = g.tickMs := by rw [hg2]
      have hg2sn : g2.snake = head :: g.snake := by rw [hg2]
      have hg2tc : g2.tickCount = g.tickCount := by rw [hg2]
      rw [Snake.poisonStep_hit hg2p, Snake.trimStep_false] at hos
      obtain ⟨hps_sn, -, -, hps_sc, hps_ms, -, -, -⟩ :=
        Snake.poisonSpawnStep_fix hps
      obtain ⟨hos_sn, -, hos_p, hos_sc, hos_ms, hos_tc, -, -⟩ :=
        Snake.obstacleStep_fix hos
      have hg6tc : g6.tickCount = g.tickCount + 1 := by
        rw [hos_tc]
        show g2.tickCount + 1 = g.tickCount + 1
        rw [hg2tc]
      refine ⟨?_, ?_, ?_, ?_⟩
      · rw [hps_sc, hos_sc]
        show g2.score - 7 = g.score - 7
        rw [hg2sc]
      · rcases Snake.poisonSpawnStep_eq hps with ⟨hcad, hroll, p, -, -⟩ |
          ⟨-, -, hg'⟩ | ⟨-, hg'⟩
        · exact absurd ⟨by rw [← hg6tc]; exact hcad, hroll⟩ hnospawn
        · rw [hg']
        · rw [hg', hos_p]
      · rw [hps_ms, hos_ms]
        show max Snake.MIN_SPEED_MS (g2.tickMs - 8) =
          max Snake.MIN_SPEED_MS (g.tickMs - 8)
        rw [hg2ms]
      · rw [hps_sn, hos_sn]
        show (g2.snake.dropLast).length = g.snake.length
        rw [hg2sn, List.length_dropLast]
        rfl

/-- A concrete running configuration whose next head cell holds the
poison, away from the spawn cadences, used to witness C4. -/
def Snake.samplePoisonGame : Snake.Game :=
  { snake := [⟨3, 3⟩, ⟨2, 3⟩]
    dir := ⟨1, 0⟩
    nextDir := ⟨1, 0⟩
    food := some ⟨10, 10⟩
    poison := some ⟨4, 3⟩
    obstacles := ∅
    score := 0
    tickMs := 140
    timeLeft := 75
    tickCount := 0
    best := 0
    phase := Snake.Phase.running }

/-- Witness for C4's amended theorem: eating the poison in the concrete
configuration drops the score by 7, speeds the tick up by 8 ms, keeps
the body length and clears the poison. -/
theorem Snake.tick_poison_effects_witness :
    (Snake.tick Snake.samplePoisonGame [] [] [] false).elim False
      (fun g' => g'.score = Snake.samplePoisonGame.score - 7 ∧
        g'.poison = none ∧
        g'.tickMs = max Snake.MIN_SPEED_MS
          (Snake.samplePoisonGame.tickMs - 8) ∧
        g'.snake.length = Snake.samplePoisonGame.snake.length) := by
  cases htick : Snake.tick Snake.samplePoisonGame [] [] [] false with
  | none =>
      have hsome : (Snake.tick Snake.samplePoisonGame [] [] []
          false).isSome = true := by decide
      rw [htick] at hsome
      cases hsome
  | some g' =>
      simp only [Option.elim]
      exact Snake.tick_poison_effects Snake.samplePoisonGame ⟨3, 3⟩ ⟨1, 0⟩
        ⟨4, 3⟩ [⟨2, 3⟩] [] [] [] false g' (by decide) (by decide) (by decide)
        (by decide) (by decide) (by decide) (by decide) (by decide)
        (by decide) (by decide) htick

namespace Snake

/-- The running-state structural invariant: a food cell is present, the
food avoids body and obstacles, the poison (when present) avoids body,
obstacles and the food cell, and no body cell sits on an obstacle.
Together these say the four kinds of cells are pairwise disjoint. -/
def Inv (g : Game) : Prop :=
  g.food.isSome = true ∧
  (∀ f, g.food = some f → f ∉ g.snake ∧ f ∉ g.obstacles) ∧
  (∀ p, g.poison = some p → p ∉ g.snake ∧ p ∉ g.obstacles ∧
    g.food ≠ some p) ∧
  (∀ c ∈ g.snake, c ∉ g.obstacles)

/-- `start` establishes the invariant: the initial food is drawn from
the unoccupied cells, the poison is absent, and the fixed border
obstacles avoid the centred initial snake. -/
theorem start_inv {best : Int} {pf pp : Option Vec} {fd : List Vec}
    {g : Game} (h : start best pf pp fd = some g) : Inv g := by
  unfold start at h
  split at h
  · cases h
  · rename_i f hre
    cases h
    obtain ⟨hf_s, hf_o, -, -⟩ := randomEmptyCell_not_occupied hre
    refine ⟨rfl, ?_, ?_, ?_⟩
    · intro f' hf'
      injection hf' with hf'
      subst hf'
      exact ⟨hf_s, hf_o⟩
    · intro p hp
      cases hp
    · show ∀ c ∈ startSnake, c ∉ startObstacles
      decide

/-- The food and poison blocks of a passing tick preserve the invariant:
after the head (which hit neither wall, obstacle nor body) is pushed,
eating relocates the food to a free cell, and the poison is either
cleared (eaten) or still avoids everything. -/
theorem foodPoisonStages_inv {g : Game} {d head : Vec} {fd : List Vec}
    {g2 : Game} {grew : Bool}
    (hinv : Inv g)
    (hob : head ∉ g.obstacles)
    (hbody : head ∉ g.snake)
    (hfs : foodStep { g with dir := d, snake := head :: g.snake } head fd
      = some (g2, grew)) :
    Inv (poisonStep g2 head) := by
  obtain ⟨hiF, hif, hip, hiso⟩ := hinv
  have hsnob : ∀ c ∈ head :: g.snake, c ∉ g.obstacles := by
    intro c hc
    rcases List.mem_cons.mp hc with rfl | hc2
    · exact hob
    · exact hiso c hc2
  rcases foodStep_eq hfs with ⟨hf1, f, hre, heq⟩ | ⟨hf1, heq⟩
  · rw [Prod.mk.injEq] at heq
    obtain ⟨hg2, -⟩ := heq
    obtain ⟨hf_ns, hf_no, -, hf_np⟩ := randomEmptyCell_not_occupied hre
    have hf_ns2 : f ∉ head :: g.snake := hf_ns
    have hf_no2 : f ∉ g.obstacles := hf_no
    have hf_np2 : g.poison ≠ some f := hf_np
    have hg2f : g2.food = some f := by rw [hg2]
    have hg2p : g2.poison = g.poison := by rw [hg2]
    have hg2sn : g2.snake = head :: g.snake := by rw [hg2]
    have hg2o : g2.obstacles = g.obstacles := by rw [hg2]
    by_cases hpe : g2.poison = some head
    · rw [poisonStep_hit hpe]
      refine ⟨?_, ?_, ?_, ?_⟩
      · show g2.food.isSome = true
        rw [hg2f]
        rfl
      · intro f' hf'
        have hf'2 : g2.food = some f' := hf'
        rw [hg2f] at hf'2
        injection hf'2 with hf'2
        subst hf'2
        constructor
        · show f ∉ g2.snake
          rw [hg2sn]
          exact hf_ns2
        · show f ∉ g2.obstacles
          rw [hg2o]
          exact hf_no2
      · intro p hp
        cases hp
      · intro c hc
        have hc2 : c ∈ head :: g.snake := by rw [← hg2sn]; exact hc
        show c ∉ g2.obstacles
        rw [hg2o]
        exact hsnob c hc2
    · rw [poisonStep_not hpe]
      refine ⟨?_, ?_, ?_, ?_⟩
      · rw [hg2f]
        rfl
      · intro f' hf'
        rw [hg2f] at hf'
        injection hf' with hf'
        subst hf'
        constructor
        · rw [hg2sn]
          exact hf_ns2
        · rw [hg2o]
          exact hf_no2
      · intro p hp
        rw [hg2p] at hp
        obtain ⟨hp_s, hp_o, -⟩ := hip p hp
        have hphead : p ≠ head := by
          intro hph
          apply hpe
          rw [hg2p, hp, hph]
        refine ⟨?_, by rw [hg2o]; exact hp_o, ?_⟩
        · rw [hg2sn]
          intro hm
          rcases List.mem_cons.mp hm with h' | h'
          · exact hphead h'
          · exact hp_s h'
        · rw [hg2f]
          intro hfp
          injection hfp with hfp
          subst hfp
          exact hf_np2 hp
      · intro c hc
        have hc2 : c ∈ head :: g.snake := by rw [← hg2sn]; exact hc
        rw [hg2o]
        exact hsnob c hc2
  · rw [Prod.mk.injEq] at heq
    obtain ⟨hg2, -⟩ := heq
    have hg2f : g2.food = g.food := by rw [hg2]
    have hg2p : g2.poison = g.poison := by rw [hg2]
    have hg2sn : g2.snake = head :: g.snake := by rw [hg2]
    have hg2o : g2.obstacles = g.obstacles := by rw [hg2]
    obtain ⟨fo, hfo⟩ := Option.isSome_iff_exists.mp hiF
    have hfo_head : fo ≠ head := by
      intro he
      subst he
      exact hf1 hfo
    obtain ⟨hfo_s, hfo_o⟩ := hif fo hfo
    have hfood_cons : fo ∉ head :: g.snake := by
      intro hm
      rcases List.mem_cons.mp hm with h' | h'
      · exact hfo_head h'
      · exact hfo_s h'
    by_cases hpe : g2.poison = some head
    · rw [poisonStep_hit hpe]
      refine ⟨?_, ?_, ?_, ?_⟩
      · show g2.food.isSome = true
        rw [hg2f, hfo]
        rfl
      · intro f' hf'
        have hf'2 : g2.food = some f' := hf'
        rw [hg2f, hfo] at hf'2
        injection hf'2 with hf'2
        subst hf'2
        constructor
        · show fo ∉ g2.snake
          rw [hg2sn]
          exact hfood_cons
        · show fo ∉ g2.obstacles
          rw [hg2o]
          exact hfo_o
      · intro p hp
        cases hp
      · intro c hc
        have hc2 : c ∈ head :: g.snake := by rw [← hg2sn]; exact hc
        show c ∉ g2.obstacles
        rw [hg2o]
        exact hsnob c hc2
    · rw [poisonStep_not hpe]
      refine ⟨?_, ?_, ?_, ?_⟩
      · rw [hg2f, hfo]
        rfl
      · intro f' hf'
        rw [hg2f, hfo] at hf'
        injection hf' with hf'
        subst hf'
        constructor
        · rw [hg2sn]
          exact hfood_cons
        · rw [hg2o]
          exact hfo_o
      · intro p hp
        rw [hg2p] at hp
        obtain ⟨hp_s, hp_o, hp_f⟩ := hip p hp
        have hphead : p ≠ head := by
          intro hph
          apply hpe
          rw [hg2p, hp, hph]
        refine ⟨?_, by rw [hg2o]; exact hp_o, ?_⟩
        · rw [hg2sn]
          intro hm
          rcases List.mem_cons.mp hm with h' | h'
          · exact hphead h'
          · exact hp_s h'
        · rw [hg2f]
          exact hp_f
      · intro c hc
        have hc2 : c ∈ head :: g.snake := by rw [← hg2sn]; exact hc
        rw [hg2o]
        exact hsnob c hc2

end Snake

namespace Snake

/-- Dropping the tail cell preserves the invariant. -/
theorem trimStep_inv {g : Game} (hinv : Inv g) (grew : Bool) :
    Inv (trimStep g grew) := by
  obtain ⟨h1, h2, h3, h4⟩ := hinv
  unfold trimStep
  split
  · exact ⟨h1, h2, h3, h4⟩
  · refine ⟨h1, ?_, ?_, ?_⟩
    · intro f hf
      obtain ⟨ha, hb⟩ := h2 f hf
      exact ⟨fun hm => ha ((List.dropLast_sublist g.snake).subset hm), hb⟩
    · intro p hp
      obtain ⟨ha, hb, hc⟩ := h3 p hp
      exact ⟨fun hm => ha ((List.dropLast_sublist g.snake).subset hm), hb, hc⟩
    · intro c hc
      exact h4 c ((List.dropLast_sublist g.snake).subset hc)

/-- Spawning one obstacle on a cell free of body, food and poison
preserves the invariant. -/
theorem obstacleStep_inv {g : Game} {od : List Vec} {g6 : Game}
    (hinv : Inv g) (h : obstacleStep g od = some g6) : Inv g6 := by
  obtain ⟨h1, h2, h3, h4⟩ := hinv
  rcases obstacleStep_eq h with ⟨o, hre, rfl⟩ | rfl
  · obtain ⟨hno_s, hno_o, hno_f, hno_p⟩ := randomEmptyCell_not_occupied hre
    refine ⟨h1, ?_, ?_, ?_⟩
    · intro f hf
      obtain ⟨ha, hb⟩ := h2 f hf
      refine ⟨ha, ?_⟩
      intro hm
      rcases Finset.mem_insert.mp hm with rfl | hm2
      · exact hno_f hf
      · exact hb hm2
    · intro p hp
      obtain ⟨ha, hb, hc⟩ := h3 p hp
      refine ⟨ha, ?_, hc⟩
      intro hm
      rcases Finset.mem_insert.mp hm with rfl | hm2
      · exact hno_p hp
      · exact hb hm2
    · intro c hc hm
      rcases Finset.mem_insert.mp hm with rfl | hm2
      · exact hno_s hc
      · exact h4 c hc hm2
  · exact ⟨h1, h2, h3, h4⟩

/-- Respawning or clearing the poison on its cadence preserves the
invariant. -/
theorem poisonSpawnStep_inv {g : Game} {roll : Bool} {pd : List Vec}
    {g7 : Game} (hinv : Inv g) (h : poisonSpawnStep g roll pd = some g7) :
    Inv g7 := by
  obtain ⟨h1, h2, h3, h4⟩ := hinv
  rcases poisonSpawnStep_eq h with ⟨-, -, p, hre, rfl⟩ | ⟨-, -, rfl⟩ |
    ⟨-, rfl⟩
  · obtain ⟨hp_s, hp_o, hp_f, -⟩ := randomEmptyCell_not_occupied hre
    refine ⟨h1, h2, ?_, h4⟩
    intro q hq
    injection hq with hq
    subst hq
    exact ⟨hp_s, hp_o, fun hfq => hp_f hfq⟩
  · refine ⟨h1, h2, ?_, h4⟩
    intro q hq
    cases hq
  · exact ⟨h1, h2, h3, h4⟩

/-- `endGame` (which only updates `best` and `phase`) preserves the
invariant. -/
theorem endGame_inv {g : Game} (hinv : Inv g) (r : Reason) :
    Inv (endGame g r) := hinv

/-- A completed `tick` preserves the invariant. -/
theorem tick_inv {g : Game} {fd od pd : List Vec} {roll : Bool}
    {g' : Game} (hinv : Inv g) (h : tick g fd od pd roll = some g') :
    Inv g' := by
  cases hsn : g.snake with
  | nil =>
      rw [tick_nil hsn] at h
      cases h
  | cons h0 t =>
      rcases tick_eq hsn rfl rfl h with ⟨-, rfl⟩ |
        ⟨-, hob, hbody, g2, grew, g6, hfs, hos, hps⟩
      · exact endGame_inv hinv Reason.hit
      · apply poisonSpawnStep_inv ?_ hps
        apply obstacleStep_inv ?_ hos
        exact trimStep_inv (foodPoisonStages_inv hinv hob hbody hfs) grew

end Snake

/-- C10: after `start()` and after every completed `tick()`, a food cell
is present, and the food cell, the poison cell (when present), the
obstacle cells and the snake body cells are pairwise disjoint: `start`
establishes the invariant `Inv` and `tick` preserves it. -/
theorem Snake.start_tick_disjointness :
    (∀ (best : Int) (pf pp : Option Snake.Vec) (fd : List Snake.Vec)
        (g : Snake.Game),
      Snake.start best pf pp fd = some g → Snake.Inv g) ∧
    (∀ (g : Snake.Game) (fd od pd : List Snake.Vec) (roll : Bool)
        (g' : Snake.Game),
      Snake.Inv g → Snake.tick g fd od pd roll = some g' → Snake.Inv g') :=
  ⟨fun _ _ _ _ _ h => Snake.start_inv h,
   fun _ _ _ _ _ _ hinv h => Snake.tick_inv hinv h⟩

/-- Witness for C10: the invariant holds of a concrete started game and
of the state after a concrete food-eating tick. -/
theorem Snake.start_tick_disjointness_witness :
    ((Snake.start 0 none none [⟨5, 5⟩]).elim False Snake.Inv) ∧
    ((Snake.tick Snake.sampleFoodGame [⟨7, 7⟩] [] [] false).elim False
      Snake.Inv) := by
  constructor
  · cases hst : Snake.start 0 none none [⟨5, 5⟩] with
    | none =>
        have hsome : (Snake.start 0 none none [⟨5, 5⟩]).isSome = true := by
          decide
        rw [hst] at hsome
        cases hsome
    | some g =>
        simp only [Option.elim]
        exact Snake.start_tick_disjointness.1 0 none none [⟨5, 5⟩] g hst
  · have hsample : Snake.Inv Snake.sampleFoodGame := by
      refine ⟨rfl, ?_, ?_, ?_⟩
      · intro f hf
        injection hf with hf
        subst hf
        constructor
        · decide
        · decide
      · intro p hp
        cases hp
      · decide
    cases htick : Snake.tick Snake.sampleFoodGame [⟨7, 7⟩] [] [] false with
    | none =>
        have hsome : (Snake.tick Snake.sampleFoodGame [⟨7, 7⟩] [] []
            false).isSome = true := by decide
        rw [htick] at hsome
        cases hsome
    | some g' =>
        simp only [Option.elim]
        exact Snake.start_tick_disjointness.2 Snake.sampleFoodGame
          [⟨7, 7⟩] [] [] false g' hsample htick
